import Mathlib

/-!
# Verification of the DCF analysis script

Shallow embedding of the computational core of `DCF analysis.py`
(class `DCFAnalysis`): data loading, historical free-cash-flow
calculation, financial projection, and DCF valuation.

Modelling conventions:
* currency amounts and rates are exact rationals (`ℚ`): every operation
  the source performs (`+`, `-`, `*`, `/`, integer powers) is field
  arithmetic, so the idealised computation lives in any ordered field and
  `ℚ` keeps all definitions executable;
* Python/pandas methods that swallow exceptions inside `try/except` and
  return `None`/`False` are embedded as `Option`/`Bool`-returning
  functions; the `none`/`false` branch is taken exactly when the Python
  body would raise;
* Lean's field division returns `0` on a zero divisor, whereas numpy
  floating-point division by zero yields `inf`/`nan` without raising; in
  both semantics no exception occurs, which is what the error-handling
  claims depend on.  Where a value is a division-by-zero artifact this is
  noted at the relevant theorem.
-/

/-- One row of the loaded historical statements (the five required
columns of the input CSV). -/
structure HistoricalRecord where
  Revenue : ℚ
  Operating_Expenses : ℚ
  Depreciation : ℚ
  Capex : ℚ
  Change_Working_Capital : ℚ
deriving Inhabited

/-- A historical row after `calculate_free_cash_flow` has appended the
derived columns EBIT, NOPAT and FCF. -/
structure FcfRecord extends HistoricalRecord where
  EBIT : ℚ
  NOPAT : ℚ
  FCF : ℚ
deriving Inhabited

/-- One row of the projection table built by `project_financials`. -/
structure ProjRecord where
  Revenue : ℚ
  EBIT : ℚ
  FCF : ℚ
deriving Inhabited

/-- `DCFAnalysis.calculate_free_cash_flow`: appends the columns
`EBIT = Revenue - Operating_Expenses`, `NOPAT = EBIT * (1 - 0.21)` and
`FCF = NOPAT + Depreciation - Capex - Change_Working_Capital` to every
row.  On a table whose rows carry all five required columns (enforced by
`load_data`) the body raises no exception. -/
def calculate_free_cash_flow (st : List HistoricalRecord) : List FcfRecord :=
  st.map (fun r =>
    let ebit := r.Revenue - r.Operating_Expenses
    let nopat := ebit * (1 - 0.21)
    { toHistoricalRecord := r
      EBIT := ebit
      NOPAT := nopat
      FCF := nopat + r.Depreciation - r.Capex - r.Change_Working_Capital })

/-- Arithmetic mean as pandas computes it over the non-null entries of a
series: sum divided by count.  For an empty list pandas yields the float
`nan`; here the Lean convention `0 / 0 = 0` applies instead — in both
semantics no exception is raised, which is all the claims below use on
the empty case. -/
def mean (l : List ℚ) : ℚ := l.sum / l.length

/-- `Series.pct_change()` restricted to its non-null entries: the list of
period-over-period relative changes `(x_{i+1} - x_i) / x_i`.  (The null
first entry produced by pandas is skipped by the subsequent `mean`.) -/
def pctChanges : List ℚ → List ℚ
  | [] => []
  | [_] => []
  | a :: b :: rest => (b - a) / a :: pctChanges (b :: rest)

/-- `self.statements['Revenue'].pct_change().mean()`. -/
def pctChangeMean (revs : List ℚ) : ℚ := mean (pctChanges revs)

/-- `np.linspace a b n`: `n` evenly spaced points from `a` to `b`,
computed as `a + k * step` with `step = (b - a) / (n - 1)`.  For `n = 1`
numpy returns `[a]`; the Lean convention `x / 0 = 0` makes the same
formula yield `[a]`, so no case split is needed. -/
def linspace (a b : ℚ) (n : ℕ) : List ℚ :=
  (List.range n).map (fun k : ℕ => a + (k : ℚ) * ((b - a) / ((n : ℚ) - 1)))

/-- The revenue projection list comprehension of `project_financials`:
`[base_revenue * np.prod(1 + growth_rates[:i]) for i in range(1, N + 1)]`
(entry `i`, 0-indexed, uses the first `i + 1` growth rates). -/
def projectRevenue (base : ℚ) (rates : List ℚ) : List ℚ :=
  (List.range rates.length).map
    (fun i => base * ((rates.take (i + 1)).map (fun g => 1 + g)).prod)

/-- The projection table produced by `DCFAnalysis.project_financials` as
the new value of `self.projections` (the method's own return value is
modelled separately, see `projectFinancialsReturnValue`).  The Python
body raises only when the historical table is empty
(`self.statements['Revenue'].iloc[-1]` raises `IndexError`); every other
step — `pct_change().mean()` on too-short series, `np.linspace`,
division of the EBIT column by a Revenue column containing zeros —
silently produces `nan`/`inf` values instead of raising, so the
`except` branch (modelled as `none`) is taken exactly on the empty
table. -/
def project_financials (st : List FcfRecord) (tg : ℚ) (n : ℕ) :
    Option (List ProjRecord) :=
  let hg := pctChangeMean (st.map (fun r => r.Revenue))
  match st.getLast? with
  | none => none
  | some lastRec =>
    let rates := linspace hg tg n
    let revs := projectRevenue lastRec.Revenue rates
    let avg_margin := mean (st.map (fun r => r.EBIT / r.Revenue))
    some (revs.map
      (fun rev => ⟨rev, rev * avg_margin, rev * avg_margin * (1 - 0.21)⟩))

/-- `float()` applied to a pandas Series: succeeds exactly on a series of
length one, yielding its single element; on any other length Python
raises `TypeError`. -/
def seriesToFloat (l : List ℚ) : Option ℚ :=
  match l with
  | [x] => some x
  | _ => none

/-- `DCFAnalysis.calculate_dcf_value`.  The Python expression
`sum(self.projections['FCF'] / (1 + self.wacc) ** year for year in
range(1, N + 1))` sums whole pandas *Series* objects, so `pv_fcf` is a
series of the same length as the projection table whose entry `j` is
`Σ_{year=1}^{N} FCF_j / (1 + wacc) ^ year` (for `N = 0` the sum of the
empty generator is the scalar `0`).  The subsequent
`float(pv_fcf)` in the result dictionary raises `TypeError` unless that
series has length one; `iloc[-1]` raises on an empty table.  Those are
the only raising steps: the division `terminal_fcf / (wacc -
terminal_growth)` is numpy floating-point division, which yields
`inf`/`nan` rather than raising when the divisor is zero. -/
def calculate_dcf_value (projs : List ProjRecord) (wacc tg : ℚ) (py : ℕ) :
    Option (ℚ × ℚ × ℚ × ℚ) :=
  let pv_fcf : Option ℚ :=
    if py = 0 then some 0
    else seriesToFloat (projs.map
      (fun q => ∑ y in Finset.range py, q.FCF / (1 + wacc) ^ (y + 1)))
  match projs.getLast? with
  | none => none
  | some lastRec =>
    let terminal_value := lastRec.FCF * (1 + tg) / (wacc - tg)
    let pv_terminal := terminal_value / (1 + wacc) ^ py
    match pv_fcf with
    | none => none
    | some pv => some (pv, terminal_value, pv_terminal, pv + pv_terminal)

/-- Return value of `DCFAnalysis.project_financials` itself: the success
path of the Python method ends without a `return` statement (so the
method returns `None`), and the `except` branch explicitly returns
`None`.  No path returns the computed projections. -/
def projectFinancialsReturnValue (st : List FcfRecord) (tg : ℚ) (n : ℕ) :
    Option (List ProjRecord) :=
  match st.getLast? with
  | none => none
  | some _ => none

/-- The tail of the `test_run` driver after the FCF stage: it calls
`dcf.project_financials()` discarding (never inspecting) its result,
then unconditionally calls `dcf.calculate_dcf_value()`.  If projection
failed, `self.projections` is still `None` and the valuation stage's
`self.projections['FCF']` raises `TypeError`, caught inside
`calculate_dcf_value` → `None`. -/
def test_run_tail (st : List FcfRecord) (w g : ℚ) (n : ℕ) :
    Option (ℚ × ℚ × ℚ × ℚ) :=
  match project_financials st g n with
  | none => none
  | some projs => calculate_dcf_value projs w g n

/-- The table columns visible to `load_data` after `pd.read_csv`
succeeded. -/
structure RawTable where
  columns : List String

/-- The five column names `load_data` requires. -/
def requiredColumns : List String :=
  ["Revenue", "Operating_Expenses", "Depreciation", "Capex",
   "Change_Working_Capital"]

/-- `DCFAnalysis.load_data`: first argument is the previous value of
`self.statements`, second the outcome of `pd.read_csv` (`none` = the
read itself raised).  The assignment `self.statements = pd.read_csv(...)`
happens *before* the required-column validation, so a table that parses
but lacks columns is still stored even though `False` is returned.
Result: (new value of `self.statements`, return value). -/
def load_data (prev : Option RawTable) (parsed : Option RawTable) :
    Option RawTable × Bool :=
  match parsed with
  | none => (prev, false)
  | some t =>
    if requiredColumns.all (fun c => t.columns.contains c) then
      (some t, true)
    else
      (some t, false)

/-! ## Basic structural lemmas -/

theorem linspace_length (a b : ℚ) (n : ℕ) : (linspace a b n).length = n := by
  rw [linspace, List.length_map, List.length_range]

theorem projectRevenue_length (b : ℚ) (l : List ℚ) :
    (projectRevenue b l).length = l.length := by
  simp [projectRevenue]

theorem prod_take_map (l : List ℚ) :
    ∀ m : ℕ, m ≤ l.length →
      ((l.take m).map (fun g => 1 + g)).prod =
        ∏ k in Finset.range m, (1 + l.getD k 0) := by
  induction l with
  | nil =>
    intro m hm
    have : m = 0 := Nat.le_zero.mp (by simpa using hm)
    subst this
    simp
  | cons a t ih =>
    intro m hm
    cases m with
    | zero => simp
    | succ j =>
      have hj : j ≤ t.length := by simpa using hm
      rw [List.take_succ_cons, List.map_cons, List.prod_cons,
        Finset.prod_range_succ', ih j hj]
      simp [mul_comm]

theorem projectRevenue_getD (b : ℚ) (l : List ℚ) (i : ℕ) (hi : i < l.length) :
    (projectRevenue b l).getD i 0 =
      b * ∏ k in Finset.range (i + 1), (1 + l.getD k 0) := by
  have hrange : (List.range l.length)[i]? = some i := List.getElem?_range hi
  rw [projectRevenue, List.getD_eq_getElem?_getD, List.getElem?_map, hrange]
  simp only [Option.map_some', Option.getD_some]
  rw [prod_take_map l (i + 1) hi]

/-! ## Claims about the valuation and FCF stages -/

/-- Claim C1 (code bug at every multi-year run): the specification says
`calculate_dcf_value` returns the four numbers `PV_FCF`, `TerminalValue`,
`PV_TerminalValue`, `TotalValue`; but on a two-year projection table the
source's `sum` of whole-Series terms makes `pv_fcf` a length-2 series,
`float(pv_fcf)` raises `TypeError`, and the function returns the `None`
failure sentinel instead of any values. -/
theorem calculate_dcf_value_two_year_returns_none :
    calculate_dcf_value [⟨0, 0, 100⟩, ⟨0, 0, 100⟩] (1/10) (1/50) 2 = none := rfl

/-- Claim C2: for every loaded historical table,
`calculate_free_cash_flow` computes, row by row, exactly
`EBIT = Revenue - Operating_Expenses`, `NOPAT = EBIT * (1 - 0.21)` and
`FCF = NOPAT + Depreciation - Capex - Change_Working_Capital`, and
returns the same sequence augmented with those columns (input fields
preserved, length preserved). -/
theorem calculate_free_cash_flow_rows (st : List HistoricalRecord) (i : ℕ)
    (hi : i < st.length) :
    (calculate_free_cash_flow st).length = st.length ∧
    ((calculate_free_cash_flow st).getD i default).toHistoricalRecord =
      st.getD i default ∧
    ((calculate_free_cash_flow st).getD i default).EBIT =
      (st.getD i default).Revenue - (st.getD i default).Operating_Expenses ∧
    ((calculate_free_cash_flow st).getD i default).NOPAT =
      ((calculate_free_cash_flow st).getD i default).EBIT * (1 - 0.21) ∧
    ((calculate_free_cash_flow st).getD i default).FCF =
      ((calculate_free_cash_flow st).getD i default).NOPAT
        + (st.getD i default).Depreciation - (st.getD i default).Capex
        - (st.getD i default).Change_Working_Capital := by
  have hget : st[i]? = some st[i] := List.getElem?_eq_getElem hi
  refine ⟨by simp [calculate_free_cash_flow], ?_, ?_, ?_, ?_⟩ <;>
    simp [calculate_free_cash_flow, List.getD_eq_getElem?_getD,
      List.getElem?_map, hget]

/-- Witness for C2 at a concrete one-row table and row index 0. -/
theorem calculate_free_cash_flow_rows_witness :
    (0 < ([⟨100, 40, 10, 20, 5⟩] : List HistoricalRecord).length) ∧
    ((calculate_free_cash_flow [⟨100, 40, 10, 20, 5⟩]).length =
        ([⟨100, 40, 10, 20, 5⟩] : List HistoricalRecord).length ∧
      ((calculate_free_cash_flow [⟨100, 40, 10, 20, 5⟩]).getD 0
          default).toHistoricalRecord =
        ([⟨100, 40, 10, 20, 5⟩] : List HistoricalRecord).getD 0 default ∧
      ((calculate_free_cash_flow [⟨100, 40, 10, 20, 5⟩]).getD 0
          default).EBIT =
        (([⟨100, 40, 10, 20, 5⟩] : List HistoricalRecord).getD 0
            default).Revenue -
          (([⟨100, 40, 10, 20, 5⟩] : List HistoricalRecord).getD 0
            default).Operating_Expenses ∧
      ((calculate_free_cash_flow [⟨100, 40, 10, 20, 5⟩]).getD 0
          default).NOPAT =
        ((calculate_free_cash_flow [⟨100, 40, 10, 20, 5⟩]).getD 0
            default).EBIT * (1 - 0.21) ∧
      ((calculate_free_cash_flow [⟨100, 40, 10, 20, 5⟩]).getD 0
          default).FCF =
        ((calculate_free_cash_flow [⟨100, 40, 10, 20, 5⟩]).getD 0
            default).NOPAT +
          (([⟨100, 40, 10, 20, 5⟩] : List HistoricalRecord).getD 0
            default).Depreciation -
          (([⟨100, 40, 10, 20, 5⟩] : List HistoricalRecord).getD 0
            default).Capex -
          (([⟨100, 40, 10, 20, 5⟩] : List HistoricalRecord).getD 0
            default).Change_Working_Capital) :=
  ⟨by decide, calculate_free_cash_flow_rows [⟨100, 40, 10, 20, 5⟩] 0 (by decide)⟩

theorem getD_map_lt {α β : Type*} [Inhabited β] (f : α → β) (l : List α)
    (i : ℕ) (d : α) (hi : i < l.length) :
    (l.map f).getD i default = f (l.getD i d) := by
  rw [List.getD_eq_getElem?_getD, List.getElem?_map,
    List.getElem?_eq_getElem hi, List.getD_eq_getElem?_getD,
    List.getElem?_eq_getElem hi]
  simp

theorem project_financials_eq (st : List FcfRecord) (tg : ℚ) (n : ℕ)
    (lastRec : FcfRecord) (hlast : st.getLast? = some lastRec) :
    project_financials st tg n =
      some ((projectRevenue lastRec.Revenue
          (linspace (pctChangeMean (st.map (fun r => r.Revenue))) tg n)).map
        (fun rev => ⟨rev, rev * mean (st.map (fun r => r.EBIT / r.Revenue)),
          rev * mean (st.map (fun r => r.EBIT / r.Revenue)) * (1 - 0.21)⟩)) := by
  simp [project_financials, hlast]

/-- Claim C3: for every historical table with at least 2 records and
every ProjectionYears `n` in 1..10, `project_financials` produces, for
every projected year `i + 1` (`i < n`, 0-indexed),
`Revenue = lastHistoricalRevenue * ∏_{k ≤ i} (1 + growthRates[k])` where
the growth rates are the linspace glide path from the mean historical
revenue growth to the terminal rate, `EBIT = Revenue * avgMargin` with
`avgMargin` the mean of EBIT/Revenue over the historical records, and
`FCF = EBIT * (1 - 0.21)`. -/
theorem project_financials_rows (st : List FcfRecord) (tg : ℚ) (n : ℕ)
    (h2 : 2 ≤ st.length) (hn1 : 1 ≤ n) (hn10 : n ≤ 10) (i : ℕ)
    (hi : i < n) :
    ∃ lastRec projs, st.getLast? = some lastRec ∧
      project_financials st tg n = some projs ∧
      projs.length = n ∧
      (projs.getD i default).Revenue =
        lastRec.Revenue * ∏ k in Finset.range (i + 1),
          (1 + (linspace (pctChangeMean (st.map (fun r => r.Revenue))) tg
              n).getD k 0) ∧
      (projs.getD i default).EBIT =
        (projs.getD i default).Revenue *
          mean (st.map (fun r => r.EBIT / r.Revenue)) ∧
      (projs.getD i default).FCF =
        (projs.getD i default).EBIT * (1 - 0.21) := by
  have hne : st ≠ [] := by
    intro h
    rw [h] at h2
    simp at h2
  obtain ⟨lastRec, hlast⟩ :=
    Option.isSome_iff_exists.mp (List.getLast?_isSome.mpr hne)
  have hlin : (linspace (pctChangeMean (st.map (fun r => r.Revenue))) tg
      n).length = n := linspace_length _ _ _
  have hrevlen : i < (projectRevenue lastRec.Revenue
      (linspace (pctChangeMean (st.map (fun r => r.Revenue))) tg
        n)).length := by
    rw [projectRevenue_length, hlin]
    exact hi
  refine ⟨lastRec, _, hlast, project_financials_eq st tg n lastRec hlast,
    ?_, ?_, ?_, ?_⟩
  · rw [List.length_map, projectRevenue_length, hlin]
  · rw [getD_map_lt _ _ i 0 hrevlen]
    exact projectRevenue_getD lastRec.Revenue _ i (by rw [hlin]; exact hi)
  · rw [getD_map_lt _ _ i 0 hrevlen]
  · rw [getD_map_lt _ _ i 0 hrevlen]

/-- Witness for C3 at a concrete two-row table, one projected year. -/
theorem project_financials_rows_witness :
    (2 ≤ ([⟨⟨100, 0, 0, 0, 0⟩, 50, 0, 0⟩, ⟨⟨200, 0, 0, 0, 0⟩, 80, 0, 0⟩] :
        List FcfRecord).length ∧ 1 ≤ 1 ∧ 1 ≤ 10 ∧ 0 < 1) ∧
    (∃ lastRec projs,
      ([⟨⟨100, 0, 0, 0, 0⟩, 50, 0, 0⟩, ⟨⟨200, 0, 0, 0, 0⟩, 80, 0, 0⟩] :
        List FcfRecord).getLast? = some lastRec ∧
      project_financials
          [⟨⟨100, 0, 0, 0, 0⟩, 50, 0, 0⟩, ⟨⟨200, 0, 0, 0, 0⟩, 80, 0, 0⟩]
          (1/50) 1 = some projs ∧
      projs.length = 1 ∧
      (projs.getD 0 default).Revenue =
        lastRec.Revenue * ∏ k in Finset.range (0 + 1),
          (1 + (linspace (pctChangeMean
              (([⟨⟨100, 0, 0, 0, 0⟩, 50, 0, 0⟩, ⟨⟨200, 0, 0, 0, 0⟩, 80, 0, 0⟩] :
                List FcfRecord).map (fun r => r.Revenue))) (1/50)
              1).getD k 0) ∧
      (projs.getD 0 default).EBIT =
        (projs.getD 0 default).Revenue *
          mean (([⟨⟨100, 0, 0, 0, 0⟩, 50, 0, 0⟩, ⟨⟨200, 0, 0, 0, 0⟩, 80, 0, 0⟩] :
            List FcfRecord).map (fun r => r.EBIT / r.Revenue)) ∧
      (projs.getD 0 default).FCF =
        (projs.getD 0 default).EBIT * (1 - 0.21)) :=
  ⟨by refine ⟨by decide, by decide, by decide, by decide⟩,
    project_financials_rows
      [⟨⟨100, 0, 0, 0, 0⟩, 50, 0, 0⟩, ⟨⟨200, 0, 0, 0, 0⟩, 80, 0, 0⟩]
      (1/50) 1 (by decide) (by decide) (by decide) 0 (by decide)⟩

/-! ## Claim C4: the growth-rate glide path -/

theorem linspace_chain_le (a s : ℚ) (n : ℕ) (hs : 0 ≤ s) :
    List.Chain' (· ≤ ·)
      ((List.range n).map (fun k : ℕ => a + (k : ℚ) * s)) := by
  cases n with
  | zero => simp
  | succ m =>
    rw [List.chain'_map, List.chain'_range_succ]
    intro j hj
    have h := mul_le_mul_of_nonneg_right
      (show (j : ℚ) ≤ (j : ℚ) + 1 by linarith) hs
    push_cast
    linarith

theorem linspace_chain_ge (a s : ℚ) (n : ℕ) (hs : s ≤ 0) :
    List.Chain' (fun x y => y ≤ x)
      ((List.range n).map (fun k : ℕ => a + (k : ℚ) * s)) := by
  cases n with
  | zero => simp
  | succ m =>
    rw [List.chain'_map, List.chain'_range_succ]
    intro j hj
    have h := mul_le_mul_of_nonpos_right
      (show (j : ℚ) ≤ (j : ℚ) + 1 by linarith) hs
    push_cast
    linarith

/-- Counterexample to claim C4 as stated: for ProjectionYears `N = 1`
(allowed by the claim's range 1..10) `np.linspace` returns the singleton
`[historicalGrowth]`, so the last entry of the growth-rate sequence is
`historicalGrowth`, not `TerminalGrowthRate`. -/
theorem linspace_single_last_ne_terminal :
    (linspace (1/10) (1/50) 1).getLast? = some (1/10 : ℚ) ∧
    (1/10 : ℚ) ≠ 1/50 := by
  constructor
  · show (linspace (1/10) (1/50) 1).getLast? = some (1/10 : ℚ)
    norm_num [linspace, List.range_succ]
  · norm_num

/-- Claim C4, amended: for every `historicalGrowth`, `TerminalGrowthRate`
and `n ≥ 1` the glide path `np.linspace historicalGrowth
TerminalGrowthRate n` has exactly `n` entries, its first entry is
`historicalGrowth`, it is monotone (non-increasing or non-decreasing
according to the ordering of the two endpoints), and — for `n ≥ 2` — its
last entry is `TerminalGrowthRate`; for `n = 1` the single entry is
`historicalGrowth` instead of the terminal rate. -/
theorem linspace_glide_path (a b : ℚ) (n : ℕ) (h1 : 1 ≤ n) :
    (linspace a b n).length = n ∧
    (linspace a b n).head? = some a ∧
    (2 ≤ n → (linspace a b n).getLast? = some b) ∧
    (a ≤ b → List.Chain' (· ≤ ·) (linspace a b n)) ∧
    (b ≤ a → List.Chain' (fun x y => y ≤ x) (linspace a b n)) := by
  have hcast : (1 : ℚ) ≤ (n : ℚ) := by exact_mod_cast h1
  refine ⟨linspace_length a b n, ?_, ?_, ?_, ?_⟩
  · obtain ⟨m, rfl⟩ : ∃ m, n = m + 1 := ⟨n - 1, by omega⟩
    have hhead : (List.range (m + 1)).head? = some 0 := by
      rw [List.range_succ_eq_map]
      rfl
    rw [linspace, List.head?_map, hhead]
    simp
  · intro h2
    obtain ⟨m, rfl⟩ : ∃ m, n = m + 2 := ⟨n - 2, by omega⟩
    have hlast : (List.range (m + 2)).getLast? = some (m + 1) := by
      rw [List.range_succ]
      exact List.getLast?_concat _
    rw [linspace, List.getLast?_map, hlast]
    simp only [Option.map_some', Option.some.injEq]
    have hden : ((m + 2 : ℕ) : ℚ) - 1 = (m : ℚ) + 1 := by
      push_cast
      ring
    have hne : (m : ℚ) + 1 ≠ 0 := by positivity
    rw [hden]
    push_cast
    field_simp
  · intro hab
    have hs : 0 ≤ (b - a) / ((n : ℚ) - 1) :=
      div_nonneg (by linarith) (by linarith)
    exact linspace_chain_le a _ n hs
  · intro hba
    have hs : (b - a) / ((n : ℚ) - 1) ≤ 0 :=
      div_nonpos_iff.mpr (Or.inr ⟨by linarith, by linarith⟩)
    exact linspace_chain_ge a _ n hs

/-- Witness for the amended C4 at `historicalGrowth = 1/10`,
`TerminalGrowthRate = 1/50`, `n = 3`. -/
theorem linspace_glide_path_witness :
    1 ≤ 3 ∧
    ((linspace (1/10) (1/50) 3).length = 3 ∧
     (linspace (1/10) (1/50) 3).head? = some (1/10 : ℚ) ∧
     (2 ≤ 3 → (linspace (1/10) (1/50) 3).getLast? = some (1/50 : ℚ)) ∧
     ((1/10 : ℚ) ≤ 1/50 → List.Chain' (· ≤ ·) (linspace (1/10) (1/50) 3)) ∧
     ((1/50 : ℚ) ≤ 1/10 →
       List.Chain' (fun x y => y ≤ x) (linspace (1/10) (1/50) 3))) :=
  ⟨by decide, linspace_glide_path (1/10) (1/50) 3 (by decide)⟩

/-! ## Claims C5 and C6: the missing degenerate-input failures -/

/-- Counterexample to claim C5 as stated: with WACC equal to the
terminal growth rate and a one-year projection table,
`calculate_dcf_value` does NOT fail with a reported error — numpy
division by the zero denominator `wacc - terminal_growth` produces
`inf` silently (here the `x / 0 = 0` convention) and a result
dictionary is returned. -/
theorem dcf_value_equal_rates_returns_result :
    (calculate_dcf_value [⟨0, 0, 100⟩] (1/20) (1/20) 1).isSome = true := rfl

/-- Claim C5, amended: `calculate_dcf_value` never checks
`WACC ≠ TerminalGrowthRate`.  With equal rates it fails to return a
result only in the multi-row case, and there because of the
series-to-float conversion `TypeError`, not the zero divisor: for a
one-row projection it returns a normal result whose terminal value is
the division-by-zero artifact (`inf` in the source's floating point). -/
theorem dcf_value_equal_rates_behavior :
    (∀ (r : ProjRecord) (w : ℚ),
      (calculate_dcf_value [r] w w 1).isSome = true) ∧
    (∀ (p q : ProjRecord) (l : List ProjRecord) (w : ℚ) (py : ℕ),
      calculate_dcf_value (p :: q :: l) w w (py + 1) = none) := by
  constructor
  · intro r w
    rfl
  · intro p q l w py
    obtain ⟨x, hx⟩ := Option.isSome_iff_exists.mp
      (List.getLast?_isSome.mpr (show p :: q :: l ≠ [] by simp))
    simp [calculate_dcf_value, hx, seriesToFloat]

/-- Counterexample to claim C6 as stated: on a single historical record
(fewer than 2), and on a table containing a zero-Revenue record,
`project_financials` completes normally — pandas produces `NaN`/`inf`
values silently instead of raising. -/
theorem project_financials_degenerate_returns_result :
    (project_financials [⟨⟨100, 0, 0, 0, 0⟩, 40, 0, 0⟩] (1/50)
      5).isSome = true ∧
    (project_financials
      [⟨⟨0, 0, 0, 0, 0⟩, 40, 0, 0⟩, ⟨⟨100, 0, 0, 0, 0⟩, 50, 0, 0⟩]
      (1/50) 5).isSome = true := by
  exact ⟨rfl, rfl⟩

/-- Claim C6, amended: `project_financials` returns the `None` failure
sentinel exactly when the historical table is empty (where `iloc[-1]`
raises `IndexError`); with exactly one record, or with zero Revenue in
some record, it completes normally, its output polluted by
division-by-zero artifacts (`NaN`/`inf` in the source's floating
point). -/
theorem project_financials_none_iff_empty (st : List FcfRecord) (tg : ℚ)
    (n : ℕ) : project_financials st tg n = none ↔ st = [] := by
  cases st with
  | nil => simp [project_financials]
  | cons a l =>
    obtain ⟨x, hx⟩ := Option.isSome_iff_exists.mp
      (List.getLast?_isSome.mpr (show a :: l ≠ [] by simp))
    simp [project_financials, hx]

/-! ## Claim C7: year-1 revenue and strict growth -/

theorem projectRevenue_nil (b : ℚ) : projectRevenue b [] = [] := rfl

theorem projectRevenue_cons (b r : ℚ) (rs : List ℚ) :
    projectRevenue b (r :: rs) =
      (b * (1 + r)) :: projectRevenue (b * (1 + r)) rs := by
  rw [projectRevenue, projectRevenue, List.length_cons,
    List.range_succ_eq_map, List.map_cons, List.map_map]
  congr 1
  · simp
  · apply List.map_congr_left
    intro i hi
    simp only [Function.comp_apply, List.take_succ_cons, List.map_cons,
      List.prod_cons]
    ring

theorem projectRevenue_chain_iff (b : ℚ) (rates : List ℚ) (hb : 0 < b) :
    List.Chain' (· < ·) (b :: projectRevenue b rates) ↔
      ∀ g ∈ rates, 0 < g := by
  induction rates generalizing b with
  | nil => simp [projectRevenue_nil]
  | cons r rs ih =>
    rw [projectRevenue_cons, List.chain'_cons]
    constructor
    · rintro ⟨h1, h2⟩
      have hr : 0 < r := by nlinarith
      have hb2 : 0 < b * (1 + r) := by nlinarith
      intro g hg
      rcases List.mem_cons.mp hg with h | h
      · rw [h]
        exact hr
      · exact (ih (b * (1 + r)) hb2).mp h2 g h
    · intro hall
      have hr : 0 < r := hall r (List.mem_cons_self r rs)
      have hb2 : 0 < b * (1 + r) := by nlinarith
      exact ⟨by nlinarith,
        (ih (b * (1 + r)) hb2).mpr
          (fun g hg => hall g (List.mem_cons_of_mem r hg))⟩

/-- Counterexample to claim C7 as stated: with positive last revenue 1
and growth-rate sequence `[-1/2, 1/2]`, the projected revenue sequence
`[1/2, 3/4]` is strictly increasing year-over-year although not all
growth rates are positive — the first rate only rescales year 1 and
never enters a year-over-year comparison within the projected
sequence. -/
theorem projectRevenue_increasing_without_positive_rate :
    List.Chain' (· < ·) (projectRevenue 1 [-(1/2), 1/2]) ∧
    ¬ (∀ g ∈ ([-(1/2), 1/2] : List ℚ), 0 < g) := by
  constructor
  · rw [projectRevenue_cons, projectRevenue_cons, projectRevenue_nil]
    norm_num [List.chain'_cons, List.chain'_singleton]
  · push_neg
    exact ⟨-(1/2), by simp, by norm_num⟩

/-- Claim C7, amended: projected revenue for year 1 equals
`lastHistoricalRevenue * (1 + growthRates[1])`; and (for positive last
revenue) the revenue path *including the step from the last historical
revenue to year 1* is strictly increasing iff all growth rates are
positive.  Restricted to the projected rows alone, as the claim
literally states it, the equivalence fails (see the counterexample). -/
theorem projectRevenue_year_one_and_strict_mono (b r : ℚ) (rs : List ℚ)
    (hb : 0 < b) :
    (projectRevenue b (r :: rs)).head? = some (b * (1 + r)) ∧
    (List.Chain' (· < ·) (b :: projectRevenue b (r :: rs)) ↔
      ∀ g ∈ r :: rs, 0 < g) := by
  constructor
  · rw [projectRevenue_cons]
    rfl
  · exact projectRevenue_chain_iff b (r :: rs) hb

/-- Witness for the amended C7 at last revenue 2 and rates
`[1/10, 1/5]`. -/
theorem projectRevenue_year_one_and_strict_mono_witness :
    (0 : ℚ) < 2 ∧
    ((projectRevenue 2 ((1/10) :: [1/5])).head? = some (2 * (1 + 1/10)) ∧
     (List.Chain' (· < ·) (2 :: projectRevenue 2 ((1/10) :: [1/5])) ↔
       ∀ g ∈ (1/10) :: [(1/5 : ℚ)], 0 < g)) :=
  ⟨by norm_num,
    projectRevenue_year_one_and_strict_mono 2 (1/10) [1/5] (by norm_num)⟩

/-! ## Claim C8: total value decomposition and positivity -/

/-- Counterexample to claim C8 as stated: the claim's preconditions
(positive FCFs, WACC in (0,1), WACC > TerminalGrowthRate) do not
constrain the terminal rate from below, and with
`TerminalGrowthRate = -2` the terminal FCF `FCF * (1 + tg)` is negative,
so the returned Terminal Value `-2/5` is negative. -/
theorem dcf_value_negative_terminal_value :
    calculate_dcf_value [⟨0, 0, 1⟩] (1/2) (-2) 1 =
      some (2/3, -(2/5), -(4/15), 2/5) ∧
    ((0 : ℚ) < 1 ∧ (0 : ℚ) < 1/2 ∧ (1/2 : ℚ) < 1 ∧ (-2 : ℚ) < 1/2) ∧
    (-(2/5) : ℚ) < 0 := by
  refine ⟨?_, by norm_num, by norm_num⟩
  norm_num [calculate_dcf_value, seriesToFloat, Finset.sum_range_succ,
    Finset.sum_range_zero]

/-- Claim C8, amended: whenever `calculate_dcf_value` returns a result,
`TotalValue = PV_FCF + PV_TerminalValue` holds exactly; and if moreover
every projected FCF is positive, `0 < WACC < 1`,
`TerminalGrowthRate < WACC`, `-1 < TerminalGrowthRate` (implied by the
assumptions invariant `-0.1 < TerminalGrowthRate < 0.1`) and
`ProjectionYears ≥ 1`, then all four returned values are positive. -/
theorem dcf_value_total_and_positivity (projs : List ProjRecord)
    (w g : ℚ) (py : ℕ) (pv tv pvt tot : ℚ)
    (hres : calculate_dcf_value projs w g py = some (pv, tv, pvt, tot)) :
    tot = pv + pvt ∧
    ((∀ q ∈ projs, 0 < q.FCF) → 0 < w → w < 1 → g < w → -1 < g →
      1 ≤ py → 0 < pv ∧ 0 < tv ∧ 0 < pvt ∧ 0 < tot) := by
  rcases projs with _ | ⟨p, _ | ⟨q, l⟩⟩
  · simp [calculate_dcf_value] at hres
  · by_cases hpy : py = 0
    · subst hpy
      simp [calculate_dcf_value] at hres
      obtain ⟨h1, h2, h3, h4⟩ := hres
      refine ⟨by linarith, ?_⟩
      intro _ _ _ _ _ h6
      exact absurd h6 (by norm_num)
    · obtain ⟨k, rfl⟩ : ∃ k, py = k + 1 := ⟨py - 1, by omega⟩
      simp [calculate_dcf_value, seriesToFloat] at hres
      obtain ⟨h1, h2, h3, h4⟩ := hres
      refine ⟨by linarith, ?_⟩
      intro hfcf hw0 hw1 hgw hg1 _
      have hp : 0 < p.FCF := hfcf p (by simp)
      have h1w : (0 : ℚ) < 1 + w := by linarith
      have h1g : (0 : ℚ) < 1 + g := by linarith
      have hwg : (0 : ℚ) < w - g := by linarith
      have hpv : 0 < pv := by
        rw [← h1]
        exact Finset.sum_pos (fun y _ => div_pos hp (pow_pos h1w _))
          Finset.nonempty_range_succ
      have htv : 0 < tv := by
        rw [← h2]
        exact div_pos (mul_pos hp h1g) hwg
      have hpvt : 0 < pvt := by
        rw [← h3]
        exact div_pos (div_pos (mul_pos hp h1g) hwg) (pow_pos h1w _)
      exact ⟨hpv, htv, hpvt, by linarith⟩
  · rcases hgl : (q :: l).getLast? with _ | lastRec
    · simp [calculate_dcf_value, hgl] at hres
    · by_cases hpy : py = 0
      · subst hpy
        simp [calculate_dcf_value, hgl] at hres
        obtain ⟨h1, h2, h3, h4⟩ := hres
        refine ⟨by linarith, ?_⟩
        intro _ _ _ _ _ h6
        exact absurd h6 (by norm_num)
      · obtain ⟨k, rfl⟩ : ∃ k, py = k + 1 := ⟨py - 1, by omega⟩
        simp [calculate_dcf_value, seriesToFloat, hgl] at hres

/-- Witness for the amended C8 at a one-row projection with FCF 1,
WACC 1/2, terminal growth 0. -/
theorem dcf_value_total_and_positivity_witness :
    calculate_dcf_value [⟨0, 0, 1⟩] (1/2) 0 1 = some (2/3, 2, 4/3, 2) ∧
    ((2 : ℚ) = 2/3 + 4/3 ∧
     ((∀ q ∈ ([⟨0, 0, 1⟩] : List ProjRecord), 0 < q.FCF) → (0 : ℚ) < 1/2 →
       (1/2 : ℚ) < 1 → (0 : ℚ) < 1/2 → (-1 : ℚ) < 0 → 1 ≤ 1 →
       0 < (2/3 : ℚ) ∧ 0 < (2 : ℚ) ∧ 0 < (4/3 : ℚ) ∧ 0 < (2 : ℚ))) :=
  have hres : calculate_dcf_value [⟨0, 0, 1⟩] (1/2) 0 1 =
      some (2/3, 2, 4/3, 2) := by
    norm_num [calculate_dcf_value, seriesToFloat, Finset.sum_range_succ,
      Finset.sum_range_zero]
  ⟨hres, dcf_value_total_and_positivity [⟨0, 0, 1⟩] (1/2) 0 1
    (2/3) 2 (4/3) 2 hres⟩

/-! ## Claims C9 and C10: pipeline sentinels and load atomicity -/

/-- Counterexample to claim C9 as stated: the projection stage violates
the sentinel policy.  On a two-record table the stage succeeds (the
state update `self.projections` is populated — `isSome`), yet the
method's return value is `None`, identical to its failure return on the
empty table: the "failure sentinel" is indistinguishable from the
success result, and `test_run` never inspects it. -/
theorem projection_return_indistinguishable :
    projectFinancialsReturnValue
        [⟨⟨100, 0, 0, 0, 0⟩, 50, 0, 0⟩, ⟨⟨200, 0, 0, 0, 0⟩, 80, 0, 0⟩]
        (1/50) 2 = none ∧
    (project_financials
        [⟨⟨100, 0, 0, 0, 0⟩, 50, 0, 0⟩, ⟨⟨200, 0, 0, 0, 0⟩, 80, 0, 0⟩]
        (1/50) 2).isSome = true ∧
    projectFinancialsReturnValue [] (1/50) 2 = none :=
  ⟨rfl, rfl, rfl⟩

/-- Claim C9, amended: every stage except the projector returns a
distinguishable sentinel that `test_run` checks before proceeding; the
projector returns `None` on success and on failure alike, `test_run`
does not inspect it, and a projection failure is surfaced only
downstream, when the valuation stage fails on the still-missing
projections (`test_run_tail` on the empty table returns the valuation
stage's `None`). -/
theorem projection_sentinel_behavior :
    (∀ (st : List FcfRecord) (g : ℚ) (n : ℕ),
      projectFinancialsReturnValue st g n = none) ∧
    (∀ (w g : ℚ) (n : ℕ), test_run_tail [] w g n = none) := by
  constructor
  · intro st g n
    rcases h : st.getLast? with _ | x <;>
      simp [projectFinancialsReturnValue, h]
  · intro w g n
    rfl

/-- Claim C10: when `load_data` is handed a table that parsed but lacks
one of the five required columns, it returns the failure sentinel
`False`, yet `self.statements` has already been set to the invalid
table — the failed load is not atomic with respect to the object's
state. -/
theorem load_data_keeps_invalid_statements (prev : Option RawTable)
    (t : RawTable)
    (h : ∃ c ∈ requiredColumns, t.columns.contains c = false) :
    load_data prev (some t) = (some t, false) := by
  obtain ⟨c, hc, hnc⟩ := h
  have hcond : ¬ (requiredColumns.all (fun c => t.columns.contains c) =
      true) := by
    rw [List.all_eq_true]
    push_neg
    exact ⟨c, hc, by simpa using hnc⟩
  simp only [load_data]
  rw [if_neg hcond]

/-- Witness for C10: a parsed table having only the `Revenue` column. -/
theorem load_data_keeps_invalid_statements_witness :
    (∃ c ∈ requiredColumns,
      (RawTable.mk ["Revenue"]).columns.contains c = false) ∧
    load_data none (some (RawTable.mk ["Revenue"])) =
      (some (RawTable.mk ["Revenue"]), false) :=
  ⟨by decide,
    load_data_keeps_invalid_statements none (RawTable.mk ["Revenue"])
      (by decide)⟩
